import Mathlib

/-!
Verification development for the ArchFlow repository.

The definitions below are a shallow embedding of the TypeScript source:

* the version/branch tracker of fe/store/use-project-store.ts
  (calculatePathToRoot, selectVersion, finishGeneration, saveCanvasState,
  loadCanvasState);
* the image-render orchestrator renderScene and the scene-JSON generator
  generateSceneJson of fe/app/actions/scene.ts together with the HTTP route
  POST /scene/generate-json;
* the project server actions getProject and updateProject and the HTTP route
  PATCH /projects/:id;
* the upload action uploadImage of fe/app/actions/upload.ts.

External services (the fal.ai diffusion endpoint, the Gemini model, the R2
object store, JSON.parse) are modelled as oracle parameters: functions
returning Except values, universally quantified in the theorems.  Thrown
JavaScript values are modelled by JsThrown; the try/catch boundary of each
server action is one of the two combinators catchFixed and catchRethrow.
The unguarded while loop of calculatePathToRoot is embedded with explicit
fuel: the loop terminates on an input exactly when some amount of fuel makes
the embedding return a value.
-/

/-- A thrown JavaScript value: either an Error carrying a message, or any
other value.  The catch blocks of the source distinguish exactly these two
cases via instanceof Error. -/
inductive JsThrown where
  | jsError (msg : String)
  | nonError
deriving DecidableEq

/-- Message extraction performed by the boundary of renderScene and
generateSceneJson: error instanceof Error ? error.message : unknown-error. -/
def jsMessage : JsThrown → String
  | .jsError m => m
  | .nonError => "Unknown error"

/-- Catch boundary that rethrows new Error with the underlying message
(renderScene and generateSceneJson in fe/app/actions/scene.ts). -/
def catchRethrow (r : Except JsThrown α) : Except String α :=
  match r with
  | .ok v => .ok v
  | .error e => .error (jsMessage e)

/-- Catch boundary that rethrows new Error with a fixed message, discarding
the underlying error (uploadImage, getProject, updateProject). -/
def catchFixed (msg : String) (r : Except JsThrown α) : Except String α :=
  match r with
  | .ok v => .ok v
  | .error _ => .error msg

/-- A version entry of the flat version list of use-project-store.ts:
id, nullable parent id, image URL, opaque config, name, type tag and an
optional creation time. -/
structure Version where
  id : String
  parentId : Option String
  imageUrl : String
  config : String
  name : String
  type : String
  createdAt : Option Nat := none
deriving DecidableEq

/-- One iteration structure of the while loop of calculatePathToRoot
(fe/store/use-project-store.ts lines 188-196): while current and
current.parentId are both set, unshift current.parentId onto the path and
move current to the version found by that id.  The loop itself has no
termination guard, so it is embedded with explicit fuel, one unit per
iteration; fuel exhaustion while the loop condition still holds returns
none.  The loop condition is the JavaScript truthiness of current.parentId,
so a null parent and an empty-string parent both stop the loop. -/
def calcPathAux (vs : List Version) (fuel : Nat) (path : List String)
    (current : Option Version) : Option (List String) :=
  match current with
  | none => some path
  | some c =>
    match c.parentId with
    | none => some path
    | some p =>
      if p = "" then some path
      else
        match fuel with
        | 0 => none
        | Nat.succ fuel' => calcPathAux vs fuel' (p :: path) (vs.find? (fun v => v.id == p))

/-- calculatePathToRoot(startId, allVersions): path starts as the singleton
startId, current as the version found by startId, then the backtracking loop
runs.  The extra fuel argument makes the unguarded loop total. -/
def calculatePathToRoot (startId : String) (allVersions : List Version)
    (fuel : Nat) : Option (List String) :=
  calcPathAux allVersions fuel [startId] (allVersions.find? (fun v => v.id == startId))

/-- The parent-pointer walk from startId terminates when some fuel suffices. -/
def calcTerminates (startId : String) (allVersions : List Version) : Prop :=
  ∃ fuel, (calculatePathToRoot startId allVersions fuel).isSome

/-- Acyclicity certificate for a version list: a depth measure that strictly
drops from every version to the parent version its parentId resolves to. -/
def ParentDepthDecreasing (vs : List Version) (depth : String → Nat) : Prop :=
  ∀ v ∈ vs, ∀ w ∈ vs, v.parentId = some w.id → depth w.id < depth v.id

instance (vs : List Version) (depth : String → Nat) :
    Decidable (ParentDepthDecreasing vs depth) := by
  unfold ParentDepthDecreasing; infer_instance

/-- Consecutive elements of a path are linked by parent pointers: each
element is the parentId of the version the following element resolves to. -/
def isParentChain (vs : List Version) : List String → Bool
  | x :: y :: rest =>
    (match vs.find? (fun v => v.id == y) with
     | some w => w.parentId == some x
     | none => false) && isParentChain vs (y :: rest)
  | _ => true

/-- The walk stopped at the head of the path for one of the loop-exit
reasons: the head id resolves to no version (dangling parent), or it
resolves to a version whose parentId is falsy — null (a root) or the empty
string. -/
def headStops (vs : List Version) : List String → Bool
  | x :: _ =>
    match vs.find? (fun v => v.id == x) with
    | some w =>
      match w.parentId with
      | none => true
      | some p => p == ""
    | none => true
  | [] => false

/-- The zustand store state of use-project-store.ts restricted to the fields
the store actions touch.  Graph nodes and edges are opaque payloads: the
store never inspects them in the modelled actions, and globalSettings is an
opaque payload for the same reason. -/
structure StoreState where
  projectId : Option String
  currentVersionId : Option String
  versions : List Version
  isGenerating : Bool
  activeBranchPath : List String
  nodes : List String
  edges : List String
  globalSettings : String
deriving DecidableEq

/-- selectVersion(id): recompute the root path for id over the stored
versions and set currentVersionId and activeBranchPath.  Inherits the fuel
of the embedded walk: none models the non-terminating run. -/
def selectVersion (st : StoreState) (id : String) (fuel : Nat) : Option StoreState :=
  match calculatePathToRoot id st.versions fuel with
  | none => none
  | some path => some { st with currentVersionId := some id, activeBranchPath := path }

/-- finishGeneration(newVersion): append the new version, recompute the root
path for its id over the appended list, select it and clear isGenerating. -/
def finishGeneration (st : StoreState) (newVersion : Version) (fuel : Nat) :
    Option StoreState :=
  let updatedVersions := st.versions ++ [newVersion]
  match calculatePathToRoot newVersion.id updatedVersions fuel with
  | none => none
  | some path =>
    some { st with
            versions := updatedVersions
            currentVersionId := some newVersion.id
            activeBranchPath := path
            isGenerating := false }

/-- Version with the given id and parent and blank payload fields, used for
concrete instances. -/
def mkVer (i : String) (p : Option String) : Version :=
  { id := i, parentId := p, imageUrl := "", config := "", name := "", type := "" }

/-- Two versions whose parent pointers form a two-cycle. -/
def twoCycle (a b : String) : List Version :=
  [mkVer a (some b), mkVer b (some a)]

/-- The initial store state of useProjectStore, with the default settings
payload left opaque. -/
def emptyStore : StoreState :=
  { projectId := none, currentVersionId := none, versions := [],
    isGenerating := false, activeBranchPath := [], nodes := [], edges := [],
    globalSettings := "" }

/-!
Image-render orchestrator: renderScene of fe/app/actions/scene.ts.
The hosted fal.ai endpoint is an oracle from the submitted input to either a
result or a thrown value.  json_prompt is carried as its serialized text,
since renderScene only ever passes it through JSON.stringify.
-/

/-- Request body of renderScene.  Counts and numeric knobs are JavaScript
numbers, modelled as integers; aspect models the aspect_ratio field. -/
structure RenderRequestBody where
  json_prompt : Option String
  lora : Option String := none
  seed : Option Int := none
  steps : Option Int := none
  variants : Option Int := none
  aspect : Option String := none
  guidance_scale : Option Int := none
deriving DecidableEq

/-- One entry of the images array of a fal.ai response; the url field of a
loosely typed response may be absent. -/
structure FalImage where
  url : Option String
deriving DecidableEq

/-- The data part of a fal.ai response: an optional images array and an
optional single image, the two shapes the extraction code tries in order. -/
structure FalData where
  images : Option (List FalImage)
  image : Option FalImage
deriving DecidableEq

/-- A resolved fal.subscribe result: response data plus request id. -/
structure FalResult where
  data : FalData
  requestId : Option String
deriving DecidableEq

/-- The input renderScene submits to fal.subscribe for one variant. -/
structure FalInput where
  prompt : String
  seed : Int
  steps_num : Int
  aspect : String
  guidance_scale : Int
deriving DecidableEq

/-- Variant-count normalization of renderScene: body.variants is used only
when present and positive, otherwise the count is 1. -/
def normVariants (v : Option Int) : Nat :=
  match v with
  | some n => if 0 < n then n.toNat else 1
  | none => 1

/-- The fal.subscribe input for variant number index: stringified
json_prompt, seed incremented by the index, and defaulted knobs
(seed 2771, steps 50, aspect 1:1, guidance 5). -/
def mkFalInput (body : RenderRequestBody) (index : Nat) : FalInput :=
  { prompt := body.json_prompt.getD ""
    seed := body.seed.getD 2771 + index
    steps_num := body.steps.getD 50
    aspect := body.aspect.getD "1:1"
    guidance_scale := body.guidance_scale.getD 5 }

/-- The list of diffusion calls renderScene issues for a request: one
fal.subscribe submission per index below the normalized variant count. -/
def renderSceneCalls (body : RenderRequestBody) : List FalInput :=
  (List.range (normVariants body.variants)).map (mkFalInput body)

/-- URL extraction from result.data: first element of a non-empty images
array, else the single image field, else nothing. -/
def extractImageUrl (d : FalData) : Option String :=
  match d.images with
  | some (img :: _) => img.url
  | _ =>
    match d.image with
    | some img => img.url
    | none => none

/-- The value one settled variant promise carries: the extracted image URL
and the request id of the fal result. -/
structure VariantValue where
  imageUrl : String
  requestId : Option String
deriving DecidableEq

/-- One variant promise of renderScene: submit to the oracle, extract the
image URL, and throw when the URL is missing or empty (the falsiness check
if not imageUrl of the source).  The inner catch logs and rethrows the same
error, so it is the identity on failures. -/
def renderVariant (fal : FalInput → Except JsThrown FalResult)
    (body : RenderRequestBody) (index : Nat) : Except JsThrown VariantValue :=
  match fal (mkFalInput body index) with
  | .error e => .error e
  | .ok result =>
    match extractImageUrl result.data with
    | none => .error (.jsError "No image URL in Fal response")
    | some url =>
      if url = "" then .error (.jsError "No image URL in Fal response")
      else .ok { imageUrl := url, requestId := result.requestId }

/-- Promise.all: resolve with every value in order, or reject as soon as the
list contains a rejection. -/
def collectAll : List (Except JsThrown α) → Except JsThrown (List α)
  | [] => .ok []
  | x :: xs =>
    match x with
    | .error e => .error e
    | .ok a =>
      match collectAll xs with
      | .error e => .error e
      | .ok rest => .ok (a :: rest)

/-- Response body of renderScene: image URLs plus an optional request id. -/
structure RenderResponseBody where
  images : List String
  requestId : Option String
deriving DecidableEq

/-- Body of renderScene before its catch boundary: reject a missing
json_prompt, fan out one variant promise per index, join them Promise.all
style, keep truthy image URLs (filter Boolean), take the request id of the
first result when truthy, and reject when no image was produced. -/
def renderSceneInner (fal : FalInput → Except JsThrown FalResult)
    (body : RenderRequestBody) : Except JsThrown RenderResponseBody :=
  match body.json_prompt with
  | none => .error (.jsError "Missing required field \"json_prompt\".")
  | some _ =>
    match collectAll ((List.range (normVariants body.variants)).map (renderVariant fal body)) with
    | .error e => .error e
    | .ok results =>
      let images := (results.map (·.imageUrl)).filter (fun s => s ≠ "")
      if images.isEmpty then .error (.jsError "Failed to generate any images")
      else
        .ok { images := images
              requestId :=
                match results.head? with
                | some r =>
                  match r.requestId with
                  | some rid => if rid = "" then none else some rid
                  | none => none
                | none => none }

/-- renderScene: the inner orchestration wrapped in the catch boundary that
rethrows new Error with the underlying message. -/
def renderScene (fal : FalInput → Except JsThrown FalResult)
    (body : RenderRequestBody) : Except String RenderResponseBody :=
  catchRethrow (renderSceneInner fal body)

/-!
Scene-JSON generator: generateSceneJson of fe/app/actions/scene.ts and the
route handler POST /api/scene/generate-json, which duplicate the same
pipeline.  The Gemini call is an oracle from the built prompt to the
response text; JSON.parse plus the zod schema validation is a second oracle
from the cleaned text to a schema-valid scene or a thrown value.  Records
are carried as their serialized text.
-/

/-- Request body of generateSceneJson and of the route.  The type tag is
optional here because the missing-type rejection is part of the contract;
record-valued fields are serialized text. -/
structure GenerateJsonRequestBody where
  type : Option String
  style : Option String := none
  theme : Option String := none
  json_prompt : Option String := none
  prompt : Option String := none
  camera : Option String := none
  lighting : Option String := none
  reference_image : Option String := none
  parent_id : Option String := none
deriving DecidableEq

/-- A response the zod schema generateJsonResponseSchema accepted: id,
nullable parent_id, type tag, optional style, json_prompt record. -/
structure ValidatedScene where
  id : String
  parent_id : Option String
  type : String
  style : Option String
  json_prompt : String
deriving DecidableEq

/-- Response body of generateSceneJson after the fallback defaults. -/
structure GenerateJsonResponseBody where
  id : String
  parent_id : Option String
  type : String
  style : Option String
  json_prompt : String
deriving DecidableEq

/-- Serialization of the request body, standing in for
JSON.stringify(input, null, 2); present fields become quoted entries in
declaration order (the exact whitespace of the JS serializer is not
reproduced, and no theorem depends on it). -/
def stringifyGenerateJsonBody (b : GenerateJsonRequestBody) : String :=
  let entry := fun (k : String) (v : Option String) =>
    match v with
    | some s => ["  \"" ++ k ++ "\": \"" ++ s ++ "\""]
    | none => []
  "\x7b\n" ++
    String.intercalate ",\n"
      (entry "type" b.type ++ entry "style" b.style ++ entry "theme" b.theme ++
       entry "json_prompt" b.json_prompt ++ entry "prompt" b.prompt ++
       entry "camera" b.camera ++ entry "lighting" b.lighting ++
       entry "reference_image" b.reference_image ++ entry "parent_id" b.parent_id) ++
  "\n\x7d"

/-- buildSystemPrompt of fe/app/actions/scene.ts: fixed template lines
joined with newlines, ending with the serialized user input.  The type
argument is only logged by the source, so it does not influence the
output. -/
def buildSystemPrompt (input : GenerateJsonRequestBody) (_t : String) : String :=
  String.intercalate "\n"
    [ "You are a scene JSON generator for an interior architecture tool.",
      "Your job is to return ONLY valid JSON for a scene definition, no markdown, no prose.",
      "",
      "Input fields:",
      "- type: describes the action (floor plan image | floor plan prompt | generate | refine)",
      "- style: high-level style like boho, contemporary, industrial",
      "- theme: color palette + mood",
      "- json_prompt: existing scene JSON to refine (if present)",
      "- prompt: natural language description",
      "- camera, lighting, reference_image: optional controls",
      "",
      "Output JSON MUST have this exact top-level shape:",
      "\x7b",
      "  \"id\": \"scene_XXX\",",
      "  \"parent_id\": \"prev_scene_id or null\",",
      "  \"type\": \"<same as input type>\",",
      "  \"style\": \"<final style string>\",",
      "  \"json_prompt\": \x7b",
      "    // structured scene spec, rooms/objects/etc.",
      "  \x7d",
      "\x7d",
      "",
      "Rules:",
      "- Always return valid JSON.",
      "- Never wrap the JSON in code fences.",
      "- Do not include comments in the final JSON.",
      "",
      "User input (for context):",
      stringifyGenerateJsonBody input ]

/-- Markdown fence stripping, modelling the regex that removes a leading
triple-backtick fence (optionally tagged json) and a trailing one, then
trims the inner text. -/
def stripCodeFence (s : String) : String :=
  if s.startsWith "```" && s.endsWith "```" && s.length ≥ 6 then
    let inner := (s.drop 3).dropRight 3
    let inner := if inner.startsWith "json" then inner.drop 4 else inner
    inner.trim
  else s

/-- The pipeline shared verbatim by the generateSceneJson action and the
POST /api/scene/generate-json route, after the missing-type check: require
the GEMINI_API_KEY environment value, build the prompt, call the hosted
model, reject an empty text, strip fences, parse and validate, then apply
the fallback defaults (generated id for an empty id, request parent_id and
style when the model omitted them, request type for an empty type tag). -/
def sceneJsonPipeline (apiKey : Option String)
    (genai : String → Except JsThrown String)
    (parseValidate : String → Except JsThrown ValidatedScene)
    (now : Nat) (body : GenerateJsonRequestBody) (t : String) :
    Except JsThrown GenerateJsonResponseBody :=
  match apiKey with
  | none => .error (.jsError "Missing GEMINI_API_KEY environment variable for @google/genai.")
  | some _ =>
    match genai (buildSystemPrompt body t) with
    | .error e => .error e
    | .ok text =>
      if text = "" then .error (.jsError "Empty response from @google/genai.")
      else
        match parseValidate (stripCodeFence text.trim) with
        | .error e => .error e
        | .ok v =>
          .ok { id := if v.id = "" then "scene_" ++ toString now else v.id
                parent_id := v.parent_id.or body.parent_id
                type := if v.type = "" then t else v.type
                style := v.style.or body.style
                json_prompt := v.json_prompt }

/-- generateSceneJson of fe/app/actions/scene.ts: reject a falsy type tag
(absent or empty string) before anything else, run the pipeline, and wrap in the catch boundary that
rethrows new Error with the underlying message. -/
def generateSceneJson (apiKey : Option String)
    (genai : String → Except JsThrown String)
    (parseValidate : String → Except JsThrown ValidatedScene)
    (now : Nat) (body : GenerateJsonRequestBody) :
    Except String GenerateJsonResponseBody :=
  catchRethrow
    (match body.type with
     | none => .error (.jsError "Missing required field \"type\".")
     | some t =>
       if t = "" then .error (.jsError "Missing required field \"type\".")
       else sceneJsonPipeline apiKey genai parseValidate now body t)

/-- A NextResponse produced by a route handler: a payload with a status, or
an error object with a status. -/
inductive RouteResponse (α : Type) where
  | payload (status : Nat) (body : α)
  | failure (status : Nat) (error : String)
deriving DecidableEq

/-- POST /api/scene/generate-json: a falsy type tag (absent or empty
string) returns status 400 before the client is created; otherwise the pipeline result is returned
with status 200 and any thrown value is caught and answered with status 500
and the fixed message. -/
def postGenerateJson (apiKey : Option String)
    (genai : String → Except JsThrown String)
    (parseValidate : String → Except JsThrown ValidatedScene)
    (now : Nat) (body : GenerateJsonRequestBody) :
    RouteResponse GenerateJsonResponseBody :=
  match body.type with
  | none => .failure 400 "Missing required field \"type\"."
  | some t =>
    if t = "" then .failure 400 "Missing required field \"type\"."
    else
      match sceneJsonPipeline apiKey genai parseValidate now body t with
      | .ok r => .payload 200 r
      | .error _ => .failure 500 "Failed to generate scene JSON"

/-!
Upload action: uploadImage of fe/app/actions/upload.ts.  The R2 client is
an oracle from content, key and content type to a URL or a thrown value.
-/

/-- The file a FormData upload carries: name, MIME type, content. -/
structure JsFile where
  name : String
  type : String
  content : String
deriving DecidableEq

/-- File-name sanitization of uploadImage: every character outside ASCII
letters, digits, dot and dash becomes an underscore. -/
def sanitizeFileName (s : String) : String :=
  s.map (fun c => if c.isAlphanum || c = '.' || c = '-' then c else '_')

/-- uploadImage: reject a missing file, build the unique key from the
current time, the generated UUID and the sanitized file name, upload, and
catch any failure into the fixed message Failed to upload image. -/
def uploadImage (uploadToR2 : String → String → String → Except JsThrown String)
    (now : Nat) (uuid : String) (file? : Option JsFile) : Except String String :=
  catchFixed "Failed to upload image"
    (match file? with
     | none => .error (.jsError "No file provided")
     | some f =>
       let key := "uploads/" ++ toString now ++ "-" ++ uuid ++ "-" ++ sanitizeFileName f.name
       uploadToR2 f.content key f.type)

/-!
Project persistence: the projects table of fe/db/schema.ts, the server
actions getProject and updateProject, the route handler
PATCH /api/projects/:id, and the store actions saveCanvasState and
loadCanvasState.  The database is a list of rows; findFirst is find? and an
update-where rewrites every row whose id matches.  The session is the
optional id of the authenticated user.
-/

/-- The canvasState JSON blob: optional nodes and edges arrays with opaque
entries (shape is whatever the client wrote). -/
structure CanvasState where
  nodes : Option (List String)
  edges : Option (List String)
deriving DecidableEq

/-- A row of the projects table: id, name, owning user, base image, the
canvasState blob and the settings columns.  Settings blobs are opaque;
createdAt is dropped because no modelled operation reads it. -/
structure Project where
  id : String
  name : String
  userId : String
  baseImage : Option String
  canvasState : Option CanvasState
  colorPalette : Option String
  interiorStyle : Option String
  materials : Option (List String)
  cameraAngle : Option String
  lighting : Option String
deriving DecidableEq

/-- The partial update both updateProject and the PATCH route pass to the
ORM: a field is written only when present.  Matches the conditional spreads
of the PATCH handler and the Partial insert type of updateProject. -/
structure UpdateData where
  canvasState : Option CanvasState := none
  name : Option String := none
  baseImage : Option String := none
  colorPalette : Option String := none
  interiorStyle : Option String := none
  materials : Option (List String) := none
  cameraAngle : Option String := none
  lighting : Option String := none
deriving DecidableEq

/-- Apply a partial update to a row: present fields overwrite, absent fields
keep the stored value. -/
def applyUpdate (p : Project) (d : UpdateData) : Project :=
  { p with
      canvasState := match d.canvasState with | some cs => some cs | none => p.canvasState
      name := d.name.getD p.name
      baseImage := match d.baseImage with | some b => some b | none => p.baseImage
      colorPalette := match d.colorPalette with | some c => some c | none => p.colorPalette
      interiorStyle := match d.interiorStyle with | some s => some s | none => p.interiorStyle
      materials := match d.materials with | some m => some m | none => p.materials
      cameraAngle := match d.cameraAngle with | some c => some c | none => p.cameraAngle
      lighting := match d.lighting with | some l => some l | none => p.lighting }

/-- getProject server action: require a session, findFirst by id (null when
absent), throw on an ownership mismatch, and catch everything into the
fixed message Failed to fetch project.  Date serialization is the identity
on the modelled fields. -/
def getProject (session : Option String) (db : List Project) (id : String) :
    Except String (Option Project) :=
  catchFixed "Failed to fetch project"
    (match session with
     | none => .error (.jsError "Unauthorized")
     | some uid =>
       match db.find? (fun p => p.id == id) with
       | none => .ok none
       | some p =>
         if p.userId == uid then .ok (some p)
         else .error (.jsError "Unauthorized: You do not own this project"))

/-- updateProject server action: require a session, findFirst by id, throw
when the row is missing or owned by another user, otherwise write the
partial update and return the new table with the updated row; every thrown
value is caught into the fixed message Failed to update project. -/
def updateProject (session : Option String) (db : List Project) (id : String)
    (data : UpdateData) : Except String (List Project × Option Project) :=
  catchFixed "Failed to update project"
    (match session with
     | none => .error (.jsError "Unauthorized")
     | some uid =>
       match db.find? (fun p => p.id == id) with
       | none => .error (.jsError "Project not found")
       | some existing =>
         if existing.userId == uid then
           let db' := db.map (fun p => if p.id == id then applyUpdate p data else p)
           .ok (db', db'.find? (fun p => p.id == id))
         else .error (.jsError "Unauthorized: You do not own this project"))

/-- PATCH /api/projects/:id: status 401 without a session, status 404 when
findFirst misses, and otherwise the update is applied and answered with
status 200.  An ownership mismatch is only logged — the handler warns
User ID mismatch, proceeding anyway for debugging — and the write goes
through for any authenticated user.  The updated table is returned next to
the response. -/
def patchProject (session : Option String) (db : List Project) (id : String)
    (body : UpdateData) : RouteResponse Project × List Project :=
  match session with
  | none => (.failure 401 "Unauthorized", db)
  | some _ =>
    match db.find? (fun p => p.id == id) with
    | none => (.failure 404 "Project not found", db)
    | some _ =>
      let db' := db.map (fun p => if p.id == id then applyUpdate p body else p)
      match db'.find? (fun p => p.id == id) with
      | some updated => (.payload 200 updated, db')
      | none => (.failure 500 "Failed to update project", db')

/-- saveCanvasState of use-project-store.ts: no-op without a projectId,
otherwise write the current nodes and edges through updateProject; a failed
write is caught and logged, leaving the table as it was. -/
def saveCanvasState (session : Option String) (db : List Project)
    (st : StoreState) : List Project :=
  match st.projectId with
  | none => db
  | some pid =>
    match updateProject session db pid
        { canvasState := some { nodes := some st.nodes, edges := some st.edges } } with
    | .ok (db', _) => db'
    | .error _ => db

/-- loadCanvasState of use-project-store.ts: fetch the project through
getProject; when it has a canvasState, install its nodes and edges (empty
lists for absent arrays) and the projectId, when it is null or has none set
only the projectId, and leave the store untouched when the fetch throws. -/
def loadCanvasState (session : Option String) (db : List Project) (id : String)
    (st : StoreState) : StoreState :=
  match getProject session db id with
  | .error _ => st
  | .ok none => { st with projectId := some id }
  | .ok (some p) =>
    match p.canvasState with
    | some cs =>
      { st with
          nodes := cs.nodes.getD []
          edges := cs.edges.getD []
          projectId := some id }
    | none => { st with projectId := some id }

/-!
Concrete fixtures used to instantiate the theorems below.
-/

/-- A diffusion oracle that resolves every call with one image. -/
def okFal : FalInput → Except JsThrown FalResult := fun _ =>
  .ok { data := { images := some [{ url := some "img" }], image := none },
        requestId := some "req" }

/-- A render request asking for three variants. -/
def body3 : RenderRequestBody := { json_prompt := some "jp", variants := some 3 }

/-- A render request with the variants field absent. -/
def bodyNoVariants : RenderRequestBody := { json_prompt := some "jp" }

/-- A render request with a base seed and two variants. -/
def bodySeeded : RenderRequestBody :=
  { json_prompt := some "jp", seed := some 10, variants := some 2 }

/-- A scene-JSON request that does carry its type tag. -/
def jbTyped : GenerateJsonRequestBody := { type := some "generate" }

/-- A concrete uploaded file. -/
def sampleFile : JsFile := { name := "plan one.png", type := "image/png", content := "bytes" }

/-- A project row owned by user bob with no canvas state yet. -/
def bobProject : Project :=
  { id := "proj1", name := "Flat", userId := "bob", baseImage := none,
    canvasState := none, colorPalette := none, interiorStyle := none,
    materials := none, cameraAngle := none, lighting := none }

/-- A project row owned by user u. -/
def uProject : Project :=
  { id := "p", name := "Home", userId := "u", baseImage := none,
    canvasState := none, colorPalette := none, interiorStyle := none,
    materials := none, cameraAngle := none, lighting := none }

/-- A fresh canvas state written by the PATCH counterexample. -/
def newCanvas : CanvasState := { nodes := some ["n1"], edges := some ["e1"] }

/-!
Lemmas about the embedded parent-pointer walk.
-/

/-- A null current pointer stops the loop at once, for any fuel. -/
theorem calcPathAux_none (vs : List Version) (fuel : Nat) (path : List String) :
    calcPathAux vs fuel path none = some path := by
  simp [calcPathAux]

/-- A current version without parent stops the loop, for any fuel. -/
theorem calcPathAux_root (vs : List Version) (fuel : Nat) (path : List String)
    (c : Version) (h : c.parentId = none) :
    calcPathAux vs fuel path (some c) = some path := by
  simp [calcPathAux, h]

/-- A current version whose parentId is the empty string stops the loop:
the string is falsy in the loop condition. -/
theorem calcPathAux_emptyParent (vs : List Version) (fuel : Nat)
    (path : List String) (c : Version) (h : c.parentId = some "") :
    calcPathAux vs fuel path (some c) = some path := by
  simp [calcPathAux, h]

/-- One loop iteration: prepend the truthy parent id and move to the version
it resolves to, spending one unit of fuel. -/
theorem calcPathAux_step (vs : List Version) (fuel : Nat) (path : List String)
    (c : Version) (p : String) (h : c.parentId = some p) (hp : p ≠ "") :
    calcPathAux vs (fuel + 1) path (some c) =
      calcPathAux vs fuel (p :: path) (vs.find? (fun v => v.id == p)) := by
  simp [calcPathAux, h, hp]

/-- Exhausted fuel while the loop condition still holds. -/
theorem calcPathAux_zero (vs : List Version) (path : List String)
    (c : Version) (p : String) (h : c.parentId = some p) (hp : p ≠ "") :
    calcPathAux vs 0 path (some c) = none := by
  simp [calcPathAux, h, hp]

/-- On a two-cycle between ids a and b the loop never stops: from either of
the two versions, every amount of fuel is exhausted. -/
theorem calcPathAux_cycle (vs : List Version) (a b : String)
    (hfa : vs.find? (fun v => v.id == a) = some (mkVer a (some b)))
    (hfb : vs.find? (fun v => v.id == b) = some (mkVer b (some a)))
    (hane : a ≠ "") (hbne : b ≠ "") :
    ∀ fuel path cur,
      (cur = some (mkVer a (some b)) ∨ cur = some (mkVer b (some a))) →
      calcPathAux vs fuel path cur = none := by
  intro fuel
  induction fuel with
  | zero =>
    intro path cur h
    rcases h with h | h <;> subst h
    · exact calcPathAux_zero vs path _ b rfl hbne
    · exact calcPathAux_zero vs path _ a rfl hane
  | succ n ih =>
    intro path cur h
    rcases h with h | h <;> subst h
    · rw [calcPathAux_step vs n path _ b rfl hbne, hfb]
      exact ih _ _ (Or.inr rfl)
    · rw [calcPathAux_step vs n path _ a rfl hane, hfa]
      exact ih _ _ (Or.inl rfl)

/-- Under a depth certificate the loop stops as soon as the fuel exceeds the
depth of the current version. -/
theorem calcPathAux_isSome (vs : List Version) (depth : String → Nat)
    (hdec : ParentDepthDecreasing vs depth) :
    ∀ fuel c path, c ∈ vs → depth c.id < fuel →
      (calcPathAux vs fuel path (some c)).isSome := by
  intro fuel
  induction fuel with
  | zero => intro c path _ hd; exact absurd hd (Nat.not_lt_zero _)
  | succ n ih =>
    intro c path hc hd
    cases hp : c.parentId with
    | none => rw [calcPathAux_root vs (n + 1) path c hp]; rfl
    | some p =>
      by_cases hpe : p = ""
      · subst hpe
        rw [calcPathAux_emptyParent vs (n + 1) path c hp]
        rfl
      rw [calcPathAux_step vs n path c p hp hpe]
      cases hf : vs.find? (fun v => v.id == p) with
      | none => rw [calcPathAux_none]; rfl
      | some w =>
        have hw : w ∈ vs := List.mem_of_find?_eq_some hf
        have hid : w.id = p := by
          have := List.find?_some hf
          simpa using this
        have hlt : depth w.id < depth c.id := hdec c hc w hw (by rw [hp, hid])
        exact ih w (p :: path) hw (Nat.lt_of_lt_of_le hlt (Nat.lt_succ_iff.mp hd))

/-- Prepending onto a non-empty list keeps its last element. -/
theorem getLast?_cons_of_ne_nil (a : String) (l : List String) (h : l ≠ []) :
    (a :: l).getLast? = l.getLast? := by
  cases l with
  | nil => exact absurd rfl h
  | cons b t => exact List.getLast?_cons_cons

/-- Whatever path the loop returns ends the way the starting path ended:
the loop only prepends. -/
theorem calcPathAux_getLast (vs : List Version) :
    ∀ fuel cur path out, path ≠ [] → calcPathAux vs fuel path cur = some out →
      out.getLast? = path.getLast? ∧ out ≠ [] := by
  intro fuel
  induction fuel with
  | zero =>
    intro cur path out hne he
    cases cur with
    | none =>
      rw [calcPathAux_none] at he
      cases he; exact ⟨rfl, hne⟩
    | some c =>
      cases hp : c.parentId with
      | none =>
        rw [calcPathAux_root vs 0 path c hp] at he
        cases he; exact ⟨rfl, hne⟩
      | some p =>
        by_cases hpe : p = ""
        · subst hpe
          rw [calcPathAux_emptyParent vs 0 path c hp] at he
          cases he; exact ⟨rfl, hne⟩
        · rw [calcPathAux_zero vs path c p hp hpe] at he
          cases he
  | succ n ih =>
    intro cur path out hne he
    cases cur with
    | none =>
      rw [calcPathAux_none] at he
      cases he; exact ⟨rfl, hne⟩
    | some c =>
      cases hp : c.parentId with
      | none =>
        rw [calcPathAux_root vs (n + 1) path c hp] at he
        cases he; exact ⟨rfl, hne⟩
      | some p =>
        by_cases hpe : p = ""
        · subst hpe
          rw [calcPathAux_emptyParent vs (n + 1) path c hp] at he
          cases he; exact ⟨rfl, hne⟩
        · rw [calcPathAux_step vs n path c p hp hpe] at he
          obtain ⟨h1, h2⟩ := ih _ _ _ (List.cons_ne_nil p path) he
          exact ⟨h1.trans (getLast?_cons_of_ne_nil p path hne), h2⟩

/-- Every returned path is parent-linked and its head is where the loop was
entitled to stop, provided the starting path was, with the current pointer
resolving its head. -/
theorem calcPathAux_chain (vs : List Version) :
    ∀ fuel hd tl out,
      calcPathAux vs fuel (hd :: tl) (vs.find? (fun v => v.id == hd)) = some out →
      isParentChain vs (hd :: tl) = true →
      isParentChain vs out = true ∧ headStops vs out = true := by
  intro fuel
  induction fuel with
  | zero =>
    intro hd tl out he hc
    cases hf : vs.find? (fun v => v.id == hd) with
    | none =>
      rw [hf, calcPathAux_none] at he
      cases he
      exact ⟨hc, by simp [headStops, hf]⟩
    | some c =>
      cases hp : c.parentId with
      | none =>
        rw [hf, calcPathAux_root vs 0 _ c hp] at he
        cases he
        exact ⟨hc, by simp [headStops, hf, hp]⟩
      | some p =>
        by_cases hpe : p = ""
        · subst hpe
          rw [hf, calcPathAux_emptyParent vs 0 _ c hp] at he
          cases he
          exact ⟨hc, by simp [headStops, hf, hp]⟩
        · rw [hf, calcPathAux_zero vs _ c p hp hpe] at he
          cases he
  | succ n ih =>
    intro hd tl out he hc
    cases hf : vs.find? (fun v => v.id == hd) with
    | none =>
      rw [hf, calcPathAux_none] at he
      cases he
      exact ⟨hc, by simp [headStops, hf]⟩
    | some c =>
      cases hp : c.parentId with
      | none =>
        rw [hf, calcPathAux_root vs (n + 1) _ c hp] at he
        cases he
        exact ⟨hc, by simp [headStops, hf, hp]⟩
      | some p =>
        by_cases hpe : p = ""
        · subst hpe
          rw [hf, calcPathAux_emptyParent vs (n + 1) _ c hp] at he
          cases he
          exact ⟨hc, by simp [headStops, hf, hp]⟩
        · rw [hf, calcPathAux_step vs n _ c p hp hpe] at he
          exact ih p (hd :: tl) out he (by simp [isParentChain, hf, hp, hc])

/-- Claim C1 counterexample: on the two-version list whose parent pointers
form a cycle, the parent-pointer walk of calculatePathToRoot started at a
version of the list never terminates — no amount of fuel makes the embedded
while loop stop — so the claim does not hold for every version list. -/
theorem calculatePathToRoot_cycle_diverges :
    ¬ calcTerminates "a" (twoCycle "a" "b") := by
  rintro ⟨fuel, hs⟩
  have hfa : (twoCycle "a" "b").find? (fun v => v.id == "a") = some (mkVer "a" (some "b")) := by
    decide
  have hfb : (twoCycle "a" "b").find? (fun v => v.id == "b") = some (mkVer "b" (some "a")) := by
    decide
  unfold calculatePathToRoot at hs
  rw [hfa, calcPathAux_cycle (twoCycle "a" "b") "a" "b" hfa hfb (by decide) (by decide)
    fuel ["a"] _ (Or.inl rfl)] at hs
  simp at hs

/-- Claim C1 (amended): for every version list whose parent pointers are
acyclic — witnessed by a depth measure that strictly drops from each version
to the version its parentId resolves to — and every version v in it, the
parent-pointer walk of calculatePathToRoot started at v.id terminates, and
the resulting path has v.id as its last element. -/
theorem calculatePathToRoot_acyclic_terminates (vs : List Version)
    (depth : String → Nat) (v : Version) (_hv : v ∈ vs)
    (hdec : ParentDepthDecreasing vs depth) :
    ∃ fuel path, calculatePathToRoot v.id vs fuel = some path ∧
      path.getLast? = some v.id := by
  unfold calculatePathToRoot
  cases hf : vs.find? (fun u => u.id == v.id) with
  | none => exact ⟨1, [v.id], by rw [calcPathAux_none], rfl⟩
  | some c =>
    have hc : c ∈ vs := List.mem_of_find?_eq_some hf
    have hs := calcPathAux_isSome vs depth hdec (depth c.id + 1) c [v.id] hc
      (Nat.lt_succ_self _)
    obtain ⟨out, hout⟩ := Option.isSome_iff_exists.mp hs
    refine ⟨depth c.id + 1, out, hout, ?_⟩
    have := (calcPathAux_getLast vs (depth c.id + 1) (some c) [v.id] out (by simp) hout).1
    simpa using this

/-- Witness for the amended claim C1 at a concrete two-version forest. -/
theorem calculatePathToRoot_acyclic_terminates_witness :
    ∃ fuel path,
      calculatePathToRoot "child" [mkVer "root" none, mkVer "child" (some "root")] fuel =
        some path ∧ path.getLast? = some "child" :=
  calculatePathToRoot_acyclic_terminates
    [mkVer "root" none, mkVer "child" (some "root")]
    (fun s => if s = "child" then 1 else 0)
    (mkVer "child" (some "root")) (by decide) (by decide)

/-- Claim C4 counterexample: with versions forming a parent cycle,
selectVersion at an id of the list never produces a state — the embedded
walk exhausts every amount of fuel — so the claim does not hold for every
version list. -/
theorem selectVersion_cycle_diverges :
    ¬ ∃ fuel st',
      selectVersion { emptyStore with versions := twoCycle "p" "q" } "p" fuel = some st' := by
  rintro ⟨fuel, st', hst⟩
  have hfa : (twoCycle "p" "q").find? (fun v => v.id == "p") = some (mkVer "p" (some "q")) := by
    decide
  have hfb : (twoCycle "p" "q").find? (fun v => v.id == "q") = some (mkVer "q" (some "p")) := by
    decide
  unfold selectVersion calculatePathToRoot at hst
  rw [show ({ emptyStore with versions := twoCycle "p" "q" } : StoreState).versions =
        twoCycle "p" "q" from rfl] at hst
  rw [hfa, calcPathAux_cycle (twoCycle "p" "q") "p" "q" hfa hfb (by decide) (by decide)
    fuel ["p"] _ (Or.inl rfl)] at hst
  simp at hst

/-- Claim C4 (amended): whenever the parent-pointer walk from id over the
stored versions terminates with some path, selectVersion(id) sets
currentVersionId to id and activeBranchPath to that path; the path has id
as its last element, each element of it is the parentId of the version the
following element resolves to, and its head is where the walk stopped — a
version with a falsy (null or empty) parentId, or a parentId resolving to
no entry, which silently stops the walk. -/
theorem selectVersion_spec (st : StoreState) (id : String) (fuel : Nat)
    (path : List String)
    (h : calculatePathToRoot id st.versions fuel = some path) :
    selectVersion st id fuel =
      some { st with currentVersionId := some id, activeBranchPath := path } ∧
    path.getLast? = some id ∧
    isParentChain st.versions path = true ∧
    headStops st.versions path = true := by
  have h' : calcPathAux st.versions fuel [id]
      (st.versions.find? (fun v => v.id == id)) = some path := h
  obtain ⟨hchain, hstop⟩ := calcPathAux_chain st.versions fuel id [] path h' (by
    simp [isParentChain])
  refine ⟨by unfold selectVersion; rw [h], ?_, hchain, hstop⟩
  have := (calcPathAux_getLast st.versions fuel _ [id] path (by simp) h').1
  simpa using this

/-- Witness for the amended claim C4 at a concrete two-version forest. -/
theorem selectVersion_spec_witness :
    selectVersion { emptyStore with versions := [mkVer "r" none, mkVer "c" (some "r")] } "c" 1 =
      some { emptyStore with
              versions := [mkVer "r" none, mkVer "c" (some "r")],
              currentVersionId := some "c", activeBranchPath := ["r", "c"] } ∧
    (["r", "c"] : List String).getLast? = some "c" ∧
    isParentChain [mkVer "r" none, mkVer "c" (some "r")] ["r", "c"] = true ∧
    headStops [mkVer "r" none, mkVer "c" (some "r")] ["r", "c"] = true :=
  selectVersion_spec { emptyStore with versions := [mkVer "r" none, mkVer "c" (some "r")] }
    "c" 1 ["r", "c"] (by decide)

/-- Claim C5 counterexample: appending a version whose parent chain runs
into a pre-existing parent cycle makes the recomputed walk of
finishGeneration diverge, so finishGeneration never produces the described
state and the claim does not hold for every store state. -/
theorem finishGeneration_cycle_diverges :
    ¬ ∃ fuel st',
      finishGeneration { emptyStore with versions := twoCycle "m" "n" }
        (mkVer "w" (some "m")) fuel = some st' := by
  rintro ⟨fuel, st', h⟩
  have hvs : ({ emptyStore with versions := twoCycle "m" "n" } : StoreState).versions ++
      [mkVer "w" (some "m")] = twoCycle "m" "n" ++ [mkVer "w" (some "m")] := rfl
  have hfa : (twoCycle "m" "n" ++ [mkVer "w" (some "m")]).find? (fun v => v.id == "m") =
      some (mkVer "m" (some "n")) := by decide
  have hfb : (twoCycle "m" "n" ++ [mkVer "w" (some "m")]).find? (fun v => v.id == "n") =
      some (mkVer "n" (some "m")) := by decide
  have hfw : (twoCycle "m" "n" ++ [mkVer "w" (some "m")]).find? (fun v => v.id == "w") =
      some (mkVer "w" (some "m")) := by decide
  have hnone : calculatePathToRoot "w" (twoCycle "m" "n" ++ [mkVer "w" (some "m")]) fuel = none := by
    unfold calculatePathToRoot
    rw [hfw]
    cases fuel with
    | zero => exact calcPathAux_zero _ _ _ "m" rfl (by decide)
    | succ n =>
      rw [calcPathAux_step _ n _ _ "m" rfl (by decide), hfa]
      exact calcPathAux_cycle _ "m" "n" hfa hfb (by decide) (by decide) n _ _ (Or.inl rfl)
  have hnone' : calculatePathToRoot (mkVer "w" (some "m")).id
      (twoCycle "m" "n" ++ [mkVer "w" (some "m")]) fuel = none := hnone
  simp [finishGeneration, hvs, hnone'] at h

/-- Claim C5 (amended): whenever the recomputed walk from the new version id
over the appended list terminates, finishGeneration leaves the previously
stored versions unchanged and in order, appends the new version as the last
element, selects it, installs the recomputed root path and clears
isGenerating. -/
theorem finishGeneration_spec (st : StoreState) (v : Version) (fuel : Nat)
    (path : List String)
    (h : calculatePathToRoot v.id (st.versions ++ [v]) fuel = some path) :
    ∃ st', finishGeneration st v fuel = some st' ∧
      st'.versions = st.versions ++ [v] ∧
      st'.currentVersionId = some v.id ∧
      st'.activeBranchPath = path ∧
      st'.isGenerating = false ∧
      path.getLast? = some v.id := by
  refine ⟨{ st with
             versions := st.versions ++ [v],
             currentVersionId := some v.id,
             activeBranchPath := path,
             isGenerating := false },
          by simp only [finishGeneration]; rw [h], rfl, rfl, rfl, rfl, ?_⟩
  have h' : calcPathAux (st.versions ++ [v]) fuel [v.id]
      ((st.versions ++ [v]).find? (fun u => u.id == v.id)) = some path := h
  have := (calcPathAux_getLast (st.versions ++ [v]) fuel _ [v.id] path (by simp) h').1
  simpa using this

/-- Witness for the amended claim C5: appending a root version to the empty
store. -/
theorem finishGeneration_spec_witness :
    ∃ st', finishGeneration emptyStore (mkVer "solo" none) 0 = some st' ∧
      st'.versions = emptyStore.versions ++ [mkVer "solo" none] ∧
      st'.currentVersionId = some (mkVer "solo" none).id ∧
      st'.activeBranchPath = ["solo"] ∧
      st'.isGenerating = false ∧
      (["solo"] : List String).getLast? = some (mkVer "solo" none).id :=
  finishGeneration_spec emptyStore (mkVer "solo" none) 0 ["solo"] (by decide)


/-!
Lemmas about the Promise.all join and the variant promises of renderScene.
-/

/-- A resolved Promise.all carries exactly one value per promise. -/
theorem collectAll_ok_length {xs : List (Except JsThrown α)} {ys : List α}
    (h : collectAll xs = .ok ys) : ys.length = xs.length := by
  induction xs generalizing ys with
  | nil => cases h; rfl
  | cons x xs ih =>
    cases x with
    | error e => simp [collectAll] at h
    | ok a =>
      cases hc : collectAll xs with
      | error e => simp [collectAll, hc] at h
      | ok rest =>
        simp only [collectAll, hc] at h
        cases h
        simp [ih hc]

/-- Every value of a resolved Promise.all comes from a resolved promise of
the joined list. -/
theorem collectAll_ok_mem {xs : List (Except JsThrown α)} {ys : List α}
    (h : collectAll xs = .ok ys) : ∀ y ∈ ys, Except.ok y ∈ xs := by
  induction xs generalizing ys with
  | nil => cases h; intro y hy; cases hy
  | cons x xs ih =>
    cases x with
    | error e => simp [collectAll] at h
    | ok a =>
      cases hc : collectAll xs with
      | error e => simp [collectAll, hc] at h
      | ok rest =>
        simp only [collectAll, hc] at h
        cases h
        intro y hy
        rcases List.mem_cons.mp hy with hy | hy
        · exact hy ▸ List.mem_cons_self _ _
        · exact List.mem_cons_of_mem _ (ih hc y hy)

/-- Promise.all rejects when any of the joined promises rejected. -/
theorem collectAll_error_of_mem {xs : List (Except JsThrown α)} {e : JsThrown}
    (h : Except.error e ∈ xs) : ∃ msg, collectAll xs = .error msg := by
  induction xs with
  | nil => cases h
  | cons x xs ih =>
    rcases List.mem_cons.mp h with hx | hx
    · exact ⟨e, by rw [← hx]; rfl⟩
    · obtain ⟨msg, hmsg⟩ := ih hx
      cases x with
      | error e' => exact ⟨e', rfl⟩
      | ok a => exact ⟨msg, by simp [collectAll, hmsg]⟩

/-- A resolved variant promise never carries an empty image URL: the
falsiness guard of the source rejected it. -/
theorem renderVariant_ok_ne_empty {fal : FalInput → Except JsThrown FalResult}
    {body : RenderRequestBody} {i : Nat} {r : VariantValue}
    (h : renderVariant fal body i = .ok r) : r.imageUrl ≠ "" := by
  unfold renderVariant at h
  cases hf : fal (mkFalInput body i) with
  | error e => simp [hf] at h
  | ok result =>
    simp only [hf] at h
    cases he : extractImageUrl result.data with
    | none => simp [he] at h
    | some url =>
      simp only [he] at h
      by_cases hu : url = ""
      · simp [if_pos hu] at h
      · simp only [if_neg hu] at h
        cases h
        exact hu

/-- On success renderScene returns one image URL per normalized variant:
each joined promise contributed exactly one non-empty URL and the Boolean
filter drops none of them. -/
theorem renderScene_ok_images_length (fal : FalInput → Except JsThrown FalResult)
    (body : RenderRequestBody) (jp : String) (hj : body.json_prompt = some jp) :
    ∀ resp, renderScene fal body = .ok resp →
      resp.images.length = normVariants body.variants := by
  intro resp hok
  unfold renderScene at hok
  cases hinner : renderSceneInner fal body with
  | error e => simp [hinner, catchRethrow] at hok
  | ok r =>
    simp only [hinner, catchRethrow] at hok
    cases hok
    unfold renderSceneInner at hinner
    simp only [hj] at hinner
    cases hcol : collectAll ((List.range (normVariants body.variants)).map (renderVariant fal body)) with
    | error e => simp [hcol] at hinner
    | ok results =>
      simp only [hcol] at hinner
      by_cases hemp : ((results.map (fun v => v.imageUrl)).filter (fun s => s ≠ "")).isEmpty
      · simp only [if_pos hemp] at hinner
        cases hinner
      · simp only [if_neg hemp] at hinner
        cases hinner
        have hall : ∀ s ∈ results.map (fun v => v.imageUrl), (decide (s ≠ "")) = true := by
          intro s hs
          obtain ⟨v, hv, rfl⟩ := List.mem_map.mp hs
          have := collectAll_ok_mem hcol v hv
          obtain ⟨i, _, hi⟩ := List.mem_map.mp this
          simpa using renderVariant_ok_ne_empty hi
        show ((results.map (fun v => v.imageUrl)).filter (fun s => s ≠ "")).length =
          normVariants body.variants
        rw [List.filter_eq_self.mpr hall, List.length_map, collectAll_ok_length hcol]
        simp

/-- A rejected variant promise below the normalized count rejects the whole
renderScene call. -/
theorem renderScene_error_of_variant_error (fal : FalInput → Except JsThrown FalResult)
    (body : RenderRequestBody) (jp : String) (hj : body.json_prompt = some jp)
    (i : Nat) (hi : i < normVariants body.variants) (e : JsThrown)
    (he : renderVariant fal body i = .error e) :
    ∃ msg, renderScene fal body = .error msg := by
  have hmem : Except.error e ∈ (List.range (normVariants body.variants)).map (renderVariant fal body) := by
    rw [← he]
    exact List.mem_map_of_mem _ (List.mem_range.mpr hi)
  obtain ⟨msg, hcol⟩ := collectAll_error_of_mem hmem
  exact ⟨jsMessage msg, by simp [renderScene, renderSceneInner, hj, hcol, catchRethrow]⟩

/-- Claim C2: with variants = 3, renderScene issues exactly 3 parallel
diffusion calls, on success returns exactly 3 image URLs, and rejects as a
whole — returning no images — as soon as any one of the per-variant
promises rejects; there is no partial result and no per-variant retry. -/
theorem renderScene_three_variants (fal : FalInput → Except JsThrown FalResult)
    (body : RenderRequestBody) (jp : String) (hj : body.json_prompt = some jp)
    (hv : body.variants = some 3) :
    (renderSceneCalls body).length = 3 ∧
    (∀ resp, renderScene fal body = .ok resp → resp.images.length = 3) ∧
    (∀ i, i < 3 → (∃ e, renderVariant fal body i = .error e) →
      ∃ msg, renderScene fal body = .error msg) := by
  have hn : normVariants body.variants = 3 := by rw [hv]; decide
  refine ⟨by simp [renderSceneCalls, hn], ?_, ?_⟩
  · intro resp hok
    have := renderScene_ok_images_length fal body jp hj resp hok
    rw [hn] at this
    exact this
  · rintro i hi ⟨e, he⟩
    exact renderScene_error_of_variant_error fal body jp hj i (by rw [hn]; exact hi) e he

/-- Witness for claim C2 with an all-resolving oracle and three variants. -/
theorem renderScene_three_variants_witness :
    (renderSceneCalls body3).length = 3 ∧
    (∀ resp, renderScene okFal body3 = .ok resp → resp.images.length = 3) ∧
    (∀ i, i < 3 → (∃ e, renderVariant okFal body3 i = .error e) →
      ∃ msg, renderScene okFal body3 = .error msg) :=
  renderScene_three_variants okFal body3 "jp" rfl rfl

/-- Claim C9: for a base seed s and a positive variant count n, renderScene
issues n parallel diffusion calls whose i-th submission carries seed s + i. -/
theorem renderScene_incrementing_seeds (body : RenderRequestBody) (n s : Int)
    (hv : body.variants = some n) (hn : 0 < n) (hs : body.seed = some s) :
    (renderSceneCalls body).length = n.toNat ∧
    (renderSceneCalls body).map (fun inp => inp.seed) =
      (List.range n.toNat).map (fun i : Nat => s + (i : Int)) := by
  have hnv : normVariants body.variants = n.toNat := by
    rw [hv]; simp [normVariants, hn]
  refine ⟨by simp [renderSceneCalls, hnv], ?_⟩
  have hpt : ∀ i ∈ List.range n.toNat,
      ((fun inp => inp.seed) ∘ mkFalInput body) i = s + (i : Int) := by
    intro i _
    simp [mkFalInput, hs]
  calc (renderSceneCalls body).map (fun inp => inp.seed)
      = (List.range n.toNat).map ((fun inp => inp.seed) ∘ mkFalInput body) := by
        rw [renderSceneCalls, hnv, List.map_map]
    _ = (List.range n.toNat).map (fun i : Nat => s + (i : Int)) := List.map_congr_left hpt

/-- Witness for claim C9 at seed 10 and two variants. -/
theorem renderScene_incrementing_seeds_witness :
    (renderSceneCalls bodySeeded).length = (2 : Int).toNat ∧
    (renderSceneCalls bodySeeded).map (fun inp => inp.seed) =
      (List.range (2 : Int).toNat).map (fun i : Nat => (10 : Int) + (i : Int)) :=
  renderScene_incrementing_seeds bodySeeded 2 10 rfl (by decide) rfl

/-- Claim C10: when variants is absent, zero or negative the count is
silently normalized to 1 — renderScene issues exactly one diffusion call
and on success returns exactly one image URL. -/
theorem renderScene_normalizes_variants (fal : FalInput → Except JsThrown FalResult)
    (body : RenderRequestBody) (jp : String) (hj : body.json_prompt = some jp)
    (hv : body.variants = none ∨ ∃ n, body.variants = some n ∧ n ≤ 0) :
    (renderSceneCalls body).length = 1 ∧
    (∀ resp, renderScene fal body = .ok resp → resp.images.length = 1) := by
  have hn : normVariants body.variants = 1 := by
    rcases hv with h | ⟨n, h, hle⟩
    · rw [h]; rfl
    · rw [h]; simp [normVariants, show ¬(0 : Int) < n by omega]
  refine ⟨by simp [renderSceneCalls, hn], ?_⟩
  intro resp hok
  have := renderScene_ok_images_length fal body jp hj resp hok
  rw [hn] at this
  exact this

/-- Witness for claim C10 with the variants field absent. -/
theorem renderScene_normalizes_variants_witness :
    (renderSceneCalls bodyNoVariants).length = 1 ∧
    (∀ resp, renderScene okFal bodyNoVariants = .ok resp → resp.images.length = 1) :=
  renderScene_normalizes_variants okFal bodyNoVariants "jp" rfl (Or.inl rfl)

/-- Claim C6: a request body without the required type field is rejected by
the generateSceneJson action and answered with status 400 by the
POST /scene/generate-json route.  The model-call oracle, the parse oracle
and the API key are universally quantified and never influence the result,
which formalizes that the rejection happens before any network call. -/
theorem generateSceneJson_missing_type (apiKey : Option String)
    (genai : String → Except JsThrown String)
    (parseValidate : String → Except JsThrown ValidatedScene)
    (now : Nat) (body : GenerateJsonRequestBody) (h : body.type = none) :
    generateSceneJson apiKey genai parseValidate now body =
      .error "Missing required field \"type\"." ∧
    postGenerateJson apiKey genai parseValidate now body =
      .failure 400 "Missing required field \"type\"." := by
  constructor
  · simp [generateSceneJson, h, catchRethrow, jsMessage]
  · simp [postGenerateJson, h]

/-- Witness for claim C6: a concrete empty body against rejecting oracles. -/
theorem generateSceneJson_missing_type_witness :
    generateSceneJson none (fun _ => .error .nonError) (fun _ => .error .nonError) 0
      { type := none } = .error "Missing required field \"type\"." ∧
    postGenerateJson none (fun _ => .error .nonError) (fun _ => .error .nonError) 0
      { type := none } = .failure 400 "Missing required field \"type\"." :=
  generateSceneJson_missing_type none (fun _ => .error .nonError)
    (fun _ => .error .nonError) 0 { type := none } rfl

/-- Claim C7 counterexample: the boundary of renderScene rethrows the
underlying message, so two different internal failures surface with two
different messages — the rethrown Error does not carry one fixed string. -/
theorem renderScene_boundary_message_varies :
    renderScene (fun _ => .error (.jsError "first upstream failure")) body3 =
      .error "first upstream failure" ∧
    renderScene (fun _ => .error (.jsError "second upstream failure")) body3 =
      .error "second upstream failure" ∧
    "first upstream failure" ≠ "second upstream failure" := by
  refine ⟨rfl, rfl, by decide⟩

/-- If every joined promise rejected with the same value, Promise.all
rejects with it. -/
theorem collectAll_all_error {xs : List (Except JsThrown α)} {e : JsThrown}
    (h : ∀ x ∈ xs, x = Except.error e) (hne : xs ≠ []) :
    collectAll xs = .error e := by
  cases xs with
  | nil => exact absurd rfl hne
  | cons x xs =>
    rw [h x (List.mem_cons_self _ _)]
    rfl

/-- Claim C7 (amended): every server action catches internal failures at its
boundary and rethrows a single Error; for uploadImage and updateProject the
message is the fixed string regardless of the underlying failure, while for
renderScene and generateSceneJson the rethrown message is the underlying
Error message itself (Unknown error only for a non-Error throw), so it
varies with the cause. -/
theorem serverAction_error_boundary (e : String)
    (body : RenderRequestBody) (jp : String) (hj : body.json_prompt = some jp)
    (jb : GenerateJsonRequestBody) (t : String) (ht : jb.type = some t) (htne : t ≠ "")
    (key : String) (parseValidate : String → Except JsThrown ValidatedScene)
    (now : Nat) (uuid : String) (f : JsFile)
    (db : List Project) (id : String) (d : UpdateData) :
    renderScene (fun _ => .error (.jsError e)) body = .error e ∧
    generateSceneJson (some key) (fun _ => .error (.jsError e)) parseValidate now jb =
      .error e ∧
    uploadImage (fun _ _ _ => .error (.jsError e)) now uuid (some f) =
      .error "Failed to upload image" ∧
    updateProject none db id d = .error "Failed to update project" := by
  refine ⟨?_, ?_, ?_, ?_⟩
  · have hn : 0 < normVariants body.variants := by
      cases hb : body.variants with
      | none => simp [normVariants]
      | some n =>
        simp only [normVariants]
        split
        · omega
        · exact Nat.one_pos
    have hall : ∀ x ∈ (List.range (normVariants body.variants)).map
        (renderVariant (fun _ => .error (.jsError e)) body),
        x = Except.error (.jsError e) := by
      intro x hx
      obtain ⟨i, _, rfl⟩ := List.mem_map.mp hx
      rfl
    have hne : (List.range (normVariants body.variants)).map
        (renderVariant (fun _ => .error (.jsError e)) body) ≠ [] := by
      simp only [ne_eq, List.map_eq_nil_iff, List.range_eq_nil]
      omega
    have hcol := collectAll_all_error hall hne
    simp [renderScene, renderSceneInner, hj, hcol, catchRethrow, jsMessage]
  · simp [generateSceneJson, ht, htne, sceneJsonPipeline, catchRethrow, jsMessage]
  · simp [uploadImage, catchFixed]
  · simp [updateProject, catchFixed]

/-- Witness for the amended claim C7 at a concrete failure. -/
theorem serverAction_error_boundary_witness :
    renderScene (fun _ => .error (.jsError "upstream exploded")) body3 =
      .error "upstream exploded" ∧
    generateSceneJson (some "k") (fun _ => .error (.jsError "upstream exploded"))
      (fun _ => .error .nonError) 0 jbTyped = .error "upstream exploded" ∧
    uploadImage (fun _ _ _ => .error (.jsError "upstream exploded")) 0 "u"
      (some sampleFile) = .error "Failed to upload image" ∧
    updateProject none [] "proj1" {} = .error "Failed to update project" :=
  serverAction_error_boundary "upstream exploded" body3 "jp" rfl jbTyped "generate" rfl
    (by decide) "k" (fun _ => .error .nonError) 0 "u" sampleFile [] "proj1" {}

/-- Claim C3: the getProject and updateProject server actions reject a
session user who does not own the project and leave the table unchanged,
but the PATCH /projects/:id handler only logs the ownership mismatch —
User ID mismatch, proceeding anyway for debugging — and applies the write
for the non-owner, answering 200 with the updated row.  The handler thus
contradicts both the spec and the enforcement in the sibling actions: a
code bug recorded by the handler itself as a debugging leftover. -/
theorem patchRoute_ignores_ownership :
    getProject (some "alice") [bobProject] "proj1" = .error "Failed to fetch project" ∧
    updateProject (some "alice") [bobProject] "proj1" { canvasState := some newCanvas } =
      .error "Failed to update project" ∧
    patchProject (some "alice") [bobProject] "proj1" { canvasState := some newCanvas } =
      (.payload 200 { bobProject with canvasState := some newCanvas },
       [{ bobProject with canvasState := some newCanvas }]) ∧
    "alice" ≠ "bob" := by
  refine ⟨rfl, rfl, rfl, by decide⟩

/-- An update-where on the id a findFirst located rewrites exactly the row
findFirst returns afterwards: applyUpdate never changes the id column. -/
theorem find?_applyUpdate (db : List Project) (pid : String) (row : Project)
    (d : UpdateData) (h : db.find? (fun p => p.id == pid) = some row) :
    (db.map (fun p => if p.id == pid then applyUpdate p d else p)).find?
      (fun p => p.id == pid) = some (applyUpdate row d) := by
  induction db with
  | nil => cases h
  | cons a l ih =>
    by_cases ha : (a.id == pid) = true
    · simp only [List.find?, ha] at h
      cases h
      have ha' : ((applyUpdate row d).id == pid) = true := ha
      simp only [List.map_cons, if_pos ha, List.find?, ha']
    · have ha' : (a.id == pid) = false := by simpa using ha
      simp only [List.find?, ha'] at h
      rw [List.map_cons, if_neg ha]
      simp only [List.find?, ha']
      exact ih h

/-- Claim C8: for a session user owning the stored project that the store
points at, saving the canvas through saveCanvasState and loading it back
through loadCanvasState restores exactly the saved nodes and edges — no
other writer touches the table in between, the two calls being composed
directly on the same table value. -/
theorem saveLoad_roundtrip (uid pid : String) (db : List Project)
    (st st2 : StoreState) (row : Project)
    (hpid : st.projectId = some pid)
    (hfind : db.find? (fun p => p.id == pid) = some row)
    (hown : row.userId = uid) :
    (loadCanvasState (some uid) (saveCanvasState (some uid) db st) pid st2).nodes = st.nodes ∧
    (loadCanvasState (some uid) (saveCanvasState (some uid) db st) pid st2).edges = st.edges ∧
    (loadCanvasState (some uid) (saveCanvasState (some uid) db st) pid st2).projectId =
      some pid := by
  have hbeq : (row.userId == uid) = true := by simp [hown]
  have hsave : saveCanvasState (some uid) db st =
      db.map (fun p => if p.id == pid then
        applyUpdate p { canvasState := some { nodes := some st.nodes, edges := some st.edges } }
      else p) := by
    simp [saveCanvasState, hpid, updateProject, catchFixed, hfind, hbeq]
  have hfind' := find?_applyUpdate db pid row
    { canvasState := some { nodes := some st.nodes, edges := some st.edges } } hfind
  have hget : getProject (some uid) (saveCanvasState (some uid) db st) pid =
      .ok (some (applyUpdate row
        { canvasState := some { nodes := some st.nodes, edges := some st.edges } })) := by
    rw [hsave]
    simp only [getProject, catchFixed, hfind']
    simp [applyUpdate, hown]
  refine ⟨?_, ?_, ?_⟩ <;> simp [loadCanvasState, hget, applyUpdate]

/-- Witness for claim C8 at a concrete owned project and non-empty canvas. -/
theorem saveLoad_roundtrip_witness :
    (loadCanvasState (some "u")
      (saveCanvasState (some "u") [uProject]
        { emptyStore with projectId := some "p", nodes := ["n1", "n2"], edges := ["e1"] })
      "p" emptyStore).nodes =
      ({ emptyStore with projectId := some "p", nodes := ["n1", "n2"], edges := ["e1"] } : StoreState).nodes ∧
    (loadCanvasState (some "u")
      (saveCanvasState (some "u") [uProject]
        { emptyStore with projectId := some "p", nodes := ["n1", "n2"], edges := ["e1"] })
      "p" emptyStore).edges =
      ({ emptyStore with projectId := some "p", nodes := ["n1", "n2"], edges := ["e1"] } : StoreState).edges ∧
    (loadCanvasState (some "u")
      (saveCanvasState (some "u") [uProject]
        { emptyStore with projectId := some "p", nodes := ["n1", "n2"], edges := ["e1"] })
      "p" emptyStore).projectId = some "p" :=
  saveLoad_roundtrip "u" "p" [uProject]
    { emptyStore with projectId := some "p", nodes := ["n1", "n2"], edges := ["e1"] }
    emptyStore uProject rfl (by decide) rfl
